import Mathlib

/-!
Verification of the meetupspot Meeting Point Optimization Engine.

This file gives a shallow embedding of the two Python modules
`main/services/optimization_service.py` and `main/services/tfl_service.py`
and proves the behavioural claims of the specification against it.

Modelling conventions:
* Coordinates and journey durations are rational numbers; the floating point
  arithmetic of the source is modelled exactly over `ℚ` and `ℝ`.
* `float('inf')` scores are modelled by `⊤` in `WithTop ℝ`; the missing
  `'distance'` key of a station is modelled by `⊤` in `WithTop ℚ`.
* Python's `x ** 0.5` and `np.std` are applied to non-negative numbers, where
  they agree with `Real.sqrt`.
* Network effects are passed in explicitly: the body of an HTTP response (or
  `none` for a raised `requests.exceptions.RequestException`) is a parameter,
  and the Django cache is explicit state, a map from key strings to data.
* Python's `list.sort` / `sorted` (stable Timsort) is `List.mergeSort`, which
  is stable, and Python's `min(xs, key=k)` (first minimum wins) is `pyMinBy`.
* A Python `ZeroDivisionError` is modelled by `Except.error`; all other code
  paths of the embedded functions are total and return `Except.ok`.
-/

namespace Meetupspot

/-- One entry of `participants_data`: a dict with keys
`start_lat`, `start_lon`, `end_lat`, `end_lon`
(see `find_optimal_meeting_point`, optimization_service.py line 56). -/
structure Participant where
  start_lat : ℚ
  start_lon : ℚ
  end_lat : ℚ
  end_lon : ℚ
deriving DecidableEq

/-- One entry of `potential_venues`: a dict with keys `id`, `name`, `lat`,
`lon` (optimization_service.py line 58). -/
structure Venue where
  id : ℕ
  name : String
  lat : ℚ
  lon : ℚ
deriving DecidableEq

/-- The journey-time oracle as seen by the optimizer: the behaviour of
`calculate_journey_time(from_lat, from_lon, to_lat, to_lon)`, which returns a
duration in minutes, or `None` on any oracle failure (tfl_service.py
lines 224-245).  The optimizer is verified for every such oracle. -/
def Oracle : Type := ℚ → ℚ → ℚ → ℚ → Option ℚ

/-- One element of the `'journeys'` list of a TfL journey-planner response;
`duration` models the optional `'duration'` field (minutes). -/
structure Journey where
  duration : Option ℚ
deriving DecidableEq

/-- The parsed JSON body of a journey-planner response.  `journeys? = some js`
models a dict carrying the key `'journeys'` with value `js`; `journeys? = none`
models a response without that key (tfl_service.py line 240). -/
structure JourneyData where
  journeys? : Option (List Journey)
deriving DecidableEq

/-- The Django cache (`django.core.cache.cache`): a map from cache-key strings
to cached data.  Expiry timestamps are not modelled; a claim about cache
*membership* does not depend on them. -/
def CacheState (δ : Type) : Type := String → Option δ

/-- `cache.set(key, data, timeout)` (tfl_service.py line 68), ignoring the
timeout. -/
def cacheSet {δ : Type} (cache : CacheState δ) (key : String) (data : δ) :
    CacheState δ :=
  fun k => if k = key then some data else cache k

/-- `TflApiService._make_request(endpoint, params, cache_key, cache_timeout)`
(tfl_service.py lines 31-74).  `net` is the outcome of
`requests.get(...)` + `raise_for_status()` + `.json()`: `some data` for a
successful 2xx JSON response and `none` for a raised
`requests.exceptions.RequestException`, which the function catches, logs and
converts to `None`.  With a cache key it first consults the cache and caches a
successful fresh response; cached data is assumed truthy (a non-empty dict). -/
def make_request {δ : Type} (cache : CacheState δ) (net : Option δ)
    (cache_key : Option String) : Option δ × CacheState δ :=
  match cache_key with
  | some key =>
    match cache key with
    | some cached => (some cached, cache)
    | none =>
      match net with
      | some data => (some data, cacheSet cache key data)
      | none => (none, cache)
  | none => (net, cache)

/-- The arguments of `TflApiService.plan_journey` (tfl_service.py line 115):
two coordinates plus the optional routing options `time` (HH:MM), `date`
(YYYYMMDD) and the `time_is_arrival` flag.  A query is "coordinate-only" when
`time = none`, `date = none` and `time_is_arrival = false`. -/
structure JourneyQuery where
  from_lat : ℚ
  from_lon : ℚ
  to_lat : ℚ
  to_lon : ℚ
  time : Option String
  date : Option String
  time_is_arrival : Bool

/-- `TflApiService.plan_journey` (tfl_service.py lines 115-147).  The query
parameters built from `q` only shape the network request, which is abstracted
by `net`; the salient point is that the call passes **no** `cache_key` to
`_make_request` ("Don't cache journey requests as they're time-sensitive",
line 144), for every query `q`. -/
def plan_journey (cache : CacheState JourneyData) (net : Option JourneyData)
    (_q : JourneyQuery) : Option JourneyData × CacheState JourneyData :=
  make_request cache net none

/-- The sort key `lambda j: j.get('duration', float('inf'))` used to pick the
fastest journey (tfl_service.py line 242). -/
def durationKey (j : Journey) : WithTop ℚ :=
  match j.duration with
  | some d => (d : WithTop ℚ)
  | none => ⊤

/-- Python's `min(xs, key=k)`: the first element attaining the minimal key
(`min` scans left to right and replaces only on a strictly smaller key);
`none` on the empty list (where Python raises `ValueError`). -/
def pyMinBy {α β : Type} [LinearOrder β] (k : α → β) : List α → Option α
  | [] => none
  | x :: xs => some (xs.foldl (fun acc y => if k y < k acc then y else acc) x)

/-- The helper `calculate_journey_time(from_lat, from_lon, to_lat, to_lon)`
(tfl_service.py lines 224-245): plans a journey (no time/date options), and if
the response is truthy, has a `'journeys'` key and the list is non-empty,
returns the `'duration'` of the fastest journey, else `None`.  The function is
total: it never raises, the only modelled failure of the transport layer being
the `RequestException` already caught inside `_make_request`. -/
def calculate_journey_time (cache : CacheState JourneyData)
    (net : Option JourneyData) (from_lat from_lon to_lat to_lon : ℚ) :
    Option ℚ :=
  let journey_data :=
    (plan_journey cache net ⟨from_lat, from_lon, to_lat, to_lon, none, none, false⟩).1
  match journey_data with
  | none => none
  | some jd =>
    match jd.journeys? with
    | none => none
    | some [] => none
    | some (j :: js) =>
      match pyMinBy durationKey (j :: js) with
      | some fastest => fastest.duration
      | none => none

/-- One element of the `'stopPoints'` list returned by the TfL stop-point
search; every field models an optional dict key read with `.get`
(tfl_service.py lines 158-166 and 221). -/
structure Station where
  id? : Option String
  commonName? : Option String
  lat? : Option ℚ
  lon? : Option ℚ
  distance? : Option ℚ
deriving DecidableEq

/-- The sort key `lambda s: s.get('distance', float('inf'))`
(tfl_service.py line 221). -/
def stationDistanceKey (s : Station) : WithTop ℚ :=
  match s.distance? with
  | some d => (d : WithTop ℚ)
  | none => ⊤

/-- The helper `get_nearest_stations(lat, lon, radius, limit)` (tfl_service.py
lines 204-222).  `api lat lon radius` abstracts
`TflApiService().get_station_nearby(lat, lon, radius)`, i.e. the `stopPoints`
of the API response (an empty list on failure); the helper sorts them by
distance (stable) and keeps the first `limit`. -/
def get_nearest_stations (api : ℚ → ℚ → ℚ → List Station)
    (lat lon radius : ℚ) (limit : ℕ) : List Station :=
  let stations := api lat lon radius
  (stations.mergeSort fun a b => decide (stationDistanceKey a ≤ stationDistanceKey b)).take limit

/-- Exceptions that the embedded Python code can raise. -/
inductive PyError where
  | zeroDivisionError
deriving DecidableEq

/-- `np.std(journey_times)` (optimization_service.py line 42): the population
standard deviation, the square root of the mean of the squared deviations from
the mean. -/
noncomputable def npStd (journey_times : List ℚ) : ℝ :=
  Real.sqrt
    (((journey_times.map
        (fun t => ((t : ℝ) - ((journey_times.sum : ℚ) : ℝ) / (journey_times.length : ℝ)) ^ 2)).sum) /
      (journey_times.length : ℝ))

/-- `MeetupOptimizationService._calculate_journey_score(journey_times)`
(optimization_service.py lines 24-49), for a service built with the given
`fairness_weight`.  Empty input scores `float('inf')`, modelled by `⊤`. -/
noncomputable def calculate_journey_score (fairness_weight : ℚ)
    (journey_times : List ℚ) : WithTop ℝ :=
  if journey_times = [] then ⊤
  else
    let total_time : ℝ := ((journey_times.sum : ℚ) : ℝ)
    let std_dev : ℝ := if 1 < journey_times.length then npStd journey_times else 0
    (((total_time + (fairness_weight : ℝ) * std_dev * (journey_times.length : ℝ) : ℝ)) : WithTop ℝ)

/-- The per-participant round trip computed in the venue loop
(optimization_service.py lines 86-105): `start → venue` plus `venue → end`,
each leg being `calculate_journey_time(...) or 0`, so a `None` (failed) leg
contributes `0` minutes. -/
def roundTrip (oracle : Oracle) (participant : Participant) (venue : Venue) : ℚ :=
  (oracle participant.start_lat participant.start_lon venue.lat venue.lon).getD 0 +
  (oracle venue.lat venue.lon participant.end_lat participant.end_lon).getD 0

/-- One entry of the `venue_scores` list (optimization_service.py
lines 110-114), and equally the returned best venue (a copy of the venue dict
extended with its `score` and `journey_times`, lines 123-125). -/
structure VenueScore where
  venue : Venue
  score : WithTop ℝ
  journey_times : List ℚ

/-- The `venue_scores` list built by the loop of optimization_service.py
lines 81-117, in venue order.  The body of the loop is total — the oracle
returns `none` rather than raising, and `or 0` turns that into `0` — so the
`except` clause of lines 116-117 never fires and every venue is scored. -/
noncomputable def venueScores (fairness_weight : ℚ) (oracle : Oracle)
    (participants_data : List Participant) (venues : List Venue) :
    List VenueScore :=
  venues.map fun venue =>
    let all_journey_times := participants_data.map fun p => roundTrip oracle p venue
    VenueScore.mk venue (calculate_journey_score fairness_weight all_journey_times)
      all_journey_times

/-- `avg_lat` of the pre-filter (optimization_service.py line 69): the mean of
the participants' start latitudes. -/
def avg_start_lat (participants_data : List Participant) : ℚ :=
  (participants_data.map Participant.start_lat).sum / (participants_data.length : ℚ)

/-- `avg_lon` of the pre-filter (optimization_service.py line 70). -/
def avg_start_lon (participants_data : List Participant) : ℚ :=
  (participants_data.map Participant.start_lon).sum / (participants_data.length : ℚ)

/-- `calc_distance(venue)` (optimization_service.py lines 73-74): Euclidean
distance in coordinate space from the venue to `(avg_lat, avg_lon)`; the
source's `(...) ** 0.5` on a non-negative number is `Real.sqrt`. -/
noncomputable def calc_distance (avg_lat avg_lon : ℚ) (venue : Venue) : ℝ :=
  Real.sqrt (((venue.lat : ℝ) - (avg_lat : ℝ)) ^ 2 + ((venue.lon : ℝ) - (avg_lon : ℝ)) ^ 2)

/-- The comparison used by `sorted(potential_venues, key=calc_distance)`. -/
noncomputable def distLE (avg_lat avg_lon : ℚ) (a b : Venue) : Bool :=
  decide (calc_distance avg_lat avg_lon a ≤ calc_distance avg_lat avg_lon b)

/-- The pre-filter block of `find_optimal_meeting_point`
(optimization_service.py lines 65-76): when there are more venues than
`max_candidates`, sort them by distance to the centroid of the participants'
start points (a stable sort) and keep the first `max_candidates`; otherwise the
venue list is left untouched.  The centroid divides by
`len(participants_data)`, which in Python raises `ZeroDivisionError` when the
participant list is empty. -/
noncomputable def prefilter (participants_data : List Participant)
    (potential_venues : List Venue) (max_candidates : ℕ) :
    Except PyError (List Venue) :=
  if potential_venues.length > max_candidates then
    if participants_data.length = 0 then Except.error PyError.zeroDivisionError
    else
      Except.ok
        ((potential_venues.mergeSort
            (distLE (avg_start_lat participants_data) (avg_start_lon participants_data))).take
          max_candidates)
  else Except.ok potential_venues

/-- The comparison used by `venue_scores.sort(key=lambda x: x['score'])`
(optimization_service.py line 120). -/
noncomputable def scoreLE (a b : VenueScore) : Bool :=
  decide (a.score ≤ b.score)

/-- `MeetupOptimizationService.find_optimal_meeting_point(participants_data,
potential_venues, max_candidates)` (optimization_service.py lines 51-128) for a
service built with the given `fairness_weight`: pre-filter, score every
surviving venue, sort ascending by score (Python's stable `list.sort`), and
return the first scored venue, or `none` when `venue_scores` is empty. -/
noncomputable def find_optimal_meeting_point (fairness_weight : ℚ)
    (oracle : Oracle) (participants_data : List Participant)
    (potential_venues : List Venue) (max_candidates : ℕ) :
    Except PyError (Option VenueScore) :=
  match prefilter participants_data potential_venues max_candidates with
  | Except.error e => Except.error e
  | Except.ok venues =>
    match (venueScores fairness_weight oracle participants_data venues).mergeSort scoreLE with
    | [] => Except.ok none
    | best :: _ => Except.ok (some best)

/-- One venue dict built by `get_potential_meeting_venues`
(optimization_service.py lines 159-166). -/
structure GenVenue where
  id : String
  name : String
  lat : ℚ
  lon : ℚ
  venue_type : String
  description : String
deriving DecidableEq

/-- The venue dict built from a station (optimization_service.py
lines 159-166), with the `.get` defaults of the source. -/
def stationToVenue (s : Station) : GenVenue :=
  GenVenue.mk (s.id?.getD (r"")) (s.commonName?.getD (r"Unknown Station"))
    (s.lat?.getD 0) (s.lon?.getD 0) (r"station")
    ((r"Near ") ++ (s.commonName?.getD (r"station")))

/-- `MeetupOptimizationService.get_potential_meeting_venues(participants_data,
venue_type, limit)` (optimization_service.py lines 130-168): collect every
participant's start and end point, take the centroid, ask
`get_nearest_stations(center_lat, center_lon, radius=1500, limit=5)` and wrap
the stations as venues, truncated to `limit`.  The centroid divides by
`len(all_points)`, which in Python raises `ZeroDivisionError` when there are no
participants.  `venue_type` is unused by the source and omitted. -/
def get_potential_meeting_venues (api : ℚ → ℚ → ℚ → List Station)
    (participants_data : List Participant) (limit : ℕ) :
    Except PyError (List GenVenue) :=
  let all_points : List (ℚ × ℚ) :=
    participants_data.foldr
      (fun p acc => (p.start_lat, p.start_lon) :: (p.end_lat, p.end_lon) :: acc) []
  if all_points.length = 0 then Except.error PyError.zeroDivisionError
  else
    let center_lat := (all_points.map Prod.fst).sum / (all_points.length : ℚ)
    let center_lon := (all_points.map Prod.snd).sum / (all_points.length : ℚ)
    let central_stations := get_nearest_stations api center_lat center_lon 1500 5
    Except.ok ((central_stations.map stationToVenue).take limit)

/-- Population standard deviation exactly as the spec words it (§4.4): `0`
when fewer than 2 values, else the square root of the mean squared deviation
from the mean.  Spec-side definition, to be compared with the code's
`np.std` branch. -/
noncomputable def spec_stddev (journey_times : List ℚ) : ℝ :=
  if journey_times.length < 2 then 0
  else
    Real.sqrt
      (((journey_times.map
          (fun t => ((t : ℝ) - ((journey_times.sum : ℚ) : ℝ) / (journey_times.length : ℝ)) ^ 2)).sum) /
        (journey_times.length : ℝ))

/-- The scoring formula exactly as the spec words it (§4.4):
`sum + fairnessWeight * stddev * count`, `+infinity` on empty input.
Spec-side definition, to be compared with `calculate_journey_score`. -/
noncomputable def spec_score (fairness_weight : ℚ) (journey_times : List ℚ) :
    WithTop ℝ :=
  if journey_times = [] then ⊤
  else
    ((((journey_times.sum : ℚ) : ℝ) +
        (fairness_weight : ℝ) * spec_stddev journey_times * (journey_times.length : ℝ) : ℝ) :
      WithTop ℝ)

/-- Concrete participant used by witnesses and counterexamples: start (0,0),
end (1,1). -/
def p0 : Participant := ⟨0, 0, 1, 1⟩

/-- Concrete venue at (5,5). -/
def vA : Venue := ⟨1, r"A", 5, 5⟩

/-- Concrete venue at (6,6). -/
def vB : Venue := ⟨2, r"B", 6, 6⟩

/-- Concrete venue at (7,7). -/
def vC : Venue := ⟨3, r"C", 7, 7⟩

/-- Oracle answering 10 minutes for every leg. -/
def oracle10 : Oracle := fun _ _ _ _ => some 10

/-- Oracle failing (returning `None`) exactly on the legs that touch the
coordinates of `vA` (latitude 5), and answering 10 minutes elsewhere. -/
def oracleFailA : Oracle :=
  fun from_lat _ to_lat _ => if from_lat = 5 ∨ to_lat = 5 then none else some 10

/-- A cache state holding data under every key. -/
def cacheFull : CacheState JourneyData := fun _ => some (JourneyData.mk (some []))

/-- The empty cache state. -/
def emptyCache : CacheState JourneyData := fun _ => none

/-- A stop-point API returning no stations. -/
def apiNone : ℚ → ℚ → ℚ → List Station := fun _ _ _ => []

/-- A successful journey-planner response with three itineraries of 30, 12 and
25 minutes. -/
def netC6 : Option JourneyData :=
  some (JourneyData.mk (some [Journey.mk (some 30), Journey.mk (some 12), Journey.mk (some 25)]))

/-- `List.find?` only depends on the predicate's values on the list. -/
theorem find_congr {α : Type} {p q : α → Bool} :
    ∀ {l : List α}, (∀ x ∈ l, p x = q x) → l.find? p = l.find? q := by
  intro l
  induction l with
  | nil => intro _; rfl
  | cons a l ih =>
    intro h
    by_cases hq : q a = true
    · rw [List.find?_cons_of_pos _ (by rw [h a (List.mem_cons_self a l)]; exact hq),
        List.find?_cons_of_pos _ hq]
    · rw [List.find?_cons_of_neg _ (by rw [h a (List.mem_cons_self a l)]; exact hq),
        List.find?_cons_of_neg _ hq]
      exact ih fun x hx => h x (List.mem_cons_of_mem a hx)

/-- The head of a stable merge sort is the first element of the original list
whose key is less-or-equal to every element's key: exactly the element Python's
stable `list.sort` puts first. -/
theorem head_mergeSort_eq_find {α : Type} (le : α → α → Bool)
    (htrans : ∀ a b c, le a b = true → le b c = true → le a c = true)
    (htotal : ∀ a b, (le a b || le b a) = true) :
    ∀ l : List α, (l.mergeSort le).head? = l.find? fun x => l.all (le x) := by
  intro l
  induction l with
  | nil => simp
  | cons a l ih =>
    obtain ⟨l₁, l₂, h1, h2, h3⟩ := List.mergeSort_cons htrans htotal a l
    have haa : le a a = true := by
      have h := htotal a a
      cases hcase : le a a
      · rw [hcase] at h; simp at h
      · rfl
    cases l₁ with
    | nil =>
      simp only [List.nil_append] at h1 h2
      have hsorted := List.sorted_mergeSort htrans htotal (a :: l)
      rw [h1] at hsorted
      have hal : ∀ y ∈ l, le a y = true := by
        intro y hy
        have hy2 : y ∈ l.mergeSort le := List.mem_mergeSort.mpr hy
        rw [h2] at hy2
        exact (List.pairwise_cons.mp hsorted).1 y hy2
      have hp : ((a :: l).all (le a)) = true := by
        simp only [List.all_cons, List.all_eq_true, Bool.and_eq_true]
        exact ⟨haa, hal⟩
      rw [h1, List.find?_cons_of_pos (p := fun x => (a :: l).all (le x)) _ hp]
      rfl
    | cons b l₁' =>
      have hab : le a b = false := by
        have hx := h3 b (List.mem_cons_self b l₁')
        cases hcase : le a b
        · rfl
        · rw [hcase] at hx; simp at hx
      have hbl : b ∈ l := by
        have hx : b ∈ l.mergeSort le := by
          rw [h2]; exact List.mem_cons_self b _
        exact List.mem_mergeSort.mp hx
      have hba : le b a = true := by
        have h := htotal a b
        rw [hab] at h
        simpa using h
      have hpa : ¬ ((a :: l).all (le a) = true) := by
        intro hall
        have hx := (List.all_eq_true.mp hall) b (List.mem_cons_of_mem a hbl)
        rw [hab] at hx
        exact Bool.false_ne_true hx
      have hIH : l.find? (fun x => l.all (le x)) = some b := by
        rw [← ih, h2]
        rfl
      rw [h1]
      simp only [List.cons_append, List.head?_cons]
      rw [List.find?_cons_of_neg (p := fun x => (a :: l).all (le x)) _ hpa, ← hIH]
      apply find_congr
      intro x hx
      simp only [List.all_cons]
      cases hq : l.all (le x)
      · simp
      · have hxb : le x b = true := (List.all_eq_true.mp hq) b hbl
        have hxa : le x a = true := htrans x b a hxb hba
        simp [hxa]

/-- A list is pairwise related by a relation that holds universally. -/
theorem pairwise_of_forall_rel {α : Type} {R : α → α → Prop} (h : ∀ a b, R a b) :
    ∀ l : List α, l.Pairwise R := by
  intro l
  induction l with
  | nil => exact List.Pairwise.nil
  | cons a l ih => exact List.pairwise_cons.mpr ⟨fun b _ => h a b, ih⟩

/-- The score comparison is transitive. -/
theorem scoreLE_trans : ∀ a b c : VenueScore,
    scoreLE a b = true → scoreLE b c = true → scoreLE a c = true := by
  intro a b c hab hbc
  simp only [scoreLE, decide_eq_true_eq] at hab hbc ⊢
  exact le_trans hab hbc

/-- The score comparison is total. -/
theorem scoreLE_total : ∀ a b : VenueScore, (scoreLE a b || scoreLE b a) = true := by
  intro a b
  simp only [scoreLE, Bool.or_eq_true, decide_eq_true_eq]
  exact le_total a.score b.score

/-- The distance comparison is transitive. -/
theorem distLE_trans (alat alon : ℚ) : ∀ a b c : Venue,
    distLE alat alon a b = true → distLE alat alon b c = true →
    distLE alat alon a c = true := by
  intro a b c hab hbc
  simp only [distLE, decide_eq_true_eq] at hab hbc ⊢
  exact le_trans hab hbc

/-- The distance comparison is total. -/
theorem distLE_total (alat alon : ℚ) : ∀ a b : Venue,
    (distLE alat alon a b || distLE alat alon b a) = true := by
  intro a b
  simp only [distLE, Bool.or_eq_true, decide_eq_true_eq]
  exact le_total _ _

/-- When the pre-filter succeeds, the optimizer reduces to sorting the scored
list. -/
theorem find_optimal_eq (w : ℚ) (oracle : Oracle) (ps : List Participant)
    (venues : List Venue) (cap : ℕ) (filtered : List Venue)
    (hf : prefilter ps venues cap = Except.ok filtered) :
    find_optimal_meeting_point w oracle ps venues cap =
      match (venueScores w oracle ps filtered).mergeSort scoreLE with
      | [] => Except.ok none
      | best :: _ => Except.ok (some best) := by
  unfold find_optimal_meeting_point
  rw [hf]

/-- When the pre-filter succeeds, the optimizer returns the head of the sorted
scored list. -/
theorem find_optimal_eq_head (w : ℚ) (oracle : Oracle) (ps : List Participant)
    (venues : List Venue) (cap : ℕ) (filtered : List Venue)
    (hf : prefilter ps venues cap = Except.ok filtered) :
    find_optimal_meeting_point w oracle ps venues cap =
      Except.ok ((venueScores w oracle ps filtered).mergeSort scoreLE).head? := by
  rw [find_optimal_eq w oracle ps venues cap filtered hf]
  cases h : (venueScores w oracle ps filtered).mergeSort scoreLE with
  | nil => rfl
  | cons b t => rfl

/-- Python's `min(xs, key=k)` on a non-empty list returns an element of the
list whose key is minimal. -/
theorem pyMinBy_spec {α β : Type} [LinearOrder β] (k : α → β) :
    ∀ (xs : List α) (x : α), ∃ m, pyMinBy k (x :: xs) = some m ∧ m ∈ x :: xs ∧
      ∀ y ∈ x :: xs, k m ≤ k y := by
  intro xs
  induction xs with
  | nil =>
    intro x
    refine ⟨x, rfl, List.mem_cons_self x [], ?_⟩
    intro y hy
    rcases List.mem_cons.mp hy with h | h
    · subst h; exact le_refl _
    · exact absurd h (List.not_mem_nil y)
  | cons y ys ih =>
    intro x
    obtain ⟨m, hm, hmem, hle⟩ := ih (if k y < k x then y else x)
    refine ⟨m, ?_, ?_, ?_⟩
    · simp only [pyMinBy, List.foldl_cons] at hm ⊢
      exact hm
    · rcases List.mem_cons.mp hmem with h | h
      · by_cases hxy : k y < k x
        · rw [if_pos hxy] at h
          rw [h]
          exact List.mem_cons_of_mem x (List.mem_cons_self y ys)
        · rw [if_neg hxy] at h
          rw [h]
          exact List.mem_cons_self x _
      · exact List.mem_cons_of_mem x (List.mem_cons_of_mem y h)
    · intro z hz
      have hmz : k m ≤ k (if k y < k x then y else x) :=
        hle _ (List.mem_cons_self _ _)
      rcases List.mem_cons.mp hz with h | h
      · rw [h]
        by_cases hxy : k y < k x
        · rw [if_pos hxy] at hmz
          exact le_trans hmz (le_of_lt hxy)
        · rw [if_neg hxy] at hmz
          exact hmz
      · rcases List.mem_cons.mp h with h2 | h2
        · rw [h2]
          by_cases hxy : k y < k x
          · rw [if_pos hxy] at hmz
            exact hmz
          · rw [if_neg hxy] at hmz
            exact le_trans hmz (not_lt.mp hxy)
        · exact hle z (List.mem_cons_of_mem _ h2)

/-- In a duplicate-free list, if `b` occurs in the left part and `a` in the
right part of a split, then whenever `a` survives `take n`, so does `b`. -/
theorem take_mem_earlier {α : Type} {r₁ r₂ : List α} {a b : α} {n : ℕ}
    (hnd : (r₁ ++ r₂).Nodup) (hb : b ∈ r₁) (ha : a ∈ r₂)
    (hmem : a ∈ (r₁ ++ r₂).take n) : b ∈ (r₁ ++ r₂).take n := by
  rw [List.take_append_eq_append_take] at hmem ⊢
  have hna : a ∉ r₁ := by
    have hd := (List.nodup_append.mp hnd).2.2
    intro hcon
    exact hd hcon ha
  rcases List.mem_append.mp hmem with h | h
  · exact absurd (List.take_subset n r₁ h) hna
  · have hpos : r₁.length < n := by
      by_contra hcon
      push_neg at hcon
      have hz : n - r₁.length = 0 := Nat.sub_eq_zero_of_le hcon
      rw [hz, List.take_zero] at h
      exact absurd h (List.not_mem_nil a)
    apply List.mem_append_left
    rw [List.take_of_length_le (le_of_lt hpos)]
    exact hb

/-- With a non-empty participant list the pre-filter never raises. -/
theorem prefilter_ok_exists (ps : List Participant) (venues : List Venue)
    (cap : ℕ) (hps : ps ≠ []) :
    ∃ f, prefilter ps venues cap = Except.ok f := by
  unfold prefilter
  by_cases hlen : venues.length > cap
  · rw [if_pos hlen,
      if_neg (fun h => hps (List.length_eq_zero.mp h))]
    exact ⟨_, rfl⟩
  · rw [if_neg hlen]
    exact ⟨_, rfl⟩

/-- The `all_points` list of `get_potential_meeting_venues` has two entries per
participant. -/
theorem all_points_length (ps : List Participant) :
    (ps.foldr (fun p acc => (p.start_lat, p.start_lon) :: (p.end_lat, p.end_lon) :: acc)
      ([] : List (ℚ × ℚ))).length = 2 * ps.length := by
  induction ps with
  | nil => rfl
  | cons p ps ih =>
    simp only [List.foldr_cons, List.length_cons, ih]
    ring

/-- The latitudes of `all_points` sum to the start latitudes plus the end
latitudes. -/
theorem all_points_fst_sum (ps : List Participant) :
    ((ps.foldr (fun p acc => (p.start_lat, p.start_lon) :: (p.end_lat, p.end_lon) :: acc)
        ([] : List (ℚ × ℚ))).map Prod.fst).sum =
      (ps.map Participant.start_lat).sum + (ps.map Participant.end_lat).sum := by
  induction ps with
  | nil => simp
  | cons p ps ih =>
    simp only [List.foldr_cons, List.map_cons, List.sum_cons, ih]
    ring

/-- The longitudes of `all_points` sum to the start longitudes plus the end
longitudes. -/
theorem all_points_snd_sum (ps : List Participant) :
    ((ps.foldr (fun p acc => (p.start_lat, p.start_lon) :: (p.end_lat, p.end_lon) :: acc)
        ([] : List (ℚ × ℚ))).map Prod.snd).sum =
      (ps.map Participant.start_lon).sum + (ps.map Participant.end_lon).sum := by
  induction ps with
  | nil => simp
  | cons p ps ih =>
    simp only [List.foldr_cons, List.map_cons, List.sum_cons, ih]
    ring

/-- `calculate_journey_time` on a transport failure.  The journey data seen by
the helper is exactly the network response because `plan_journey` passes no
cache key. -/
theorem cjt_of_failure (cache : CacheState JourneyData)
    (from_lat from_lon to_lat to_lon : ℚ) :
    calculate_journey_time cache none from_lat from_lon to_lat to_lon = none := rfl

/-- `calculate_journey_time` on a response without a `'journeys'` key. -/
theorem cjt_of_no_journeys_key (cache : CacheState JourneyData)
    (from_lat from_lon to_lat to_lon : ℚ) :
    calculate_journey_time cache (some (JourneyData.mk none))
      from_lat from_lon to_lat to_lon = none := rfl

/-- `calculate_journey_time` on a response with an empty journey list. -/
theorem cjt_of_empty_journeys (cache : CacheState JourneyData)
    (from_lat from_lon to_lat to_lon : ℚ) :
    calculate_journey_time cache (some (JourneyData.mk (some [])))
      from_lat from_lon to_lat to_lon = none := rfl

/-- `calculate_journey_time` on a response with a non-empty journey list picks
the duration of Python's `min` by duration key. -/
theorem cjt_of_journeys (cache : CacheState JourneyData)
    (from_lat from_lon to_lat to_lon : ℚ) (j : Journey) (js : List Journey) :
    calculate_journey_time cache (some (JourneyData.mk (some (j :: js))))
      from_lat from_lon to_lat to_lon =
      match pyMinBy durationKey (j :: js) with
      | some fastest => fastest.duration
      | none => none := rfl

/-- `_make_request` with a cache key reduced over the cache lookup. -/
theorem make_request_some_key {δ : Type} (cache : CacheState δ)
    (net : Option δ) (key : String) :
    make_request cache net (some key) =
      match cache key with
      | some cached => (some cached, cache)
      | none =>
        match net with
        | some data => (some data, cacheSet cache key data)
        | none => (none, cache) := rfl

/-- Claim C1: for every fairness weight and list of journey times, the code's
scoring function returns `sum(journeyTimes) + fairnessWeight *
stddev(journeyTimes) * count(journeyTimes)` where `stddev` is the population
standard deviation and is 0 when the list has fewer than 2 values, and the
empty list scores `+infinity` (`⊤`). -/
theorem C1_score_formula : ∀ (w : ℚ) (ts : List ℚ),
    calculate_journey_score w ts = spec_score w ts := by
  intro w ts
  by_cases h : ts = []
  · simp [calculate_journey_score, spec_score, h]
  · simp only [calculate_journey_score, spec_score, spec_stddev, npStd, if_neg h]
    by_cases h2 : 1 < ts.length
    · rw [if_pos h2, if_neg (by omega)]
    · rw [if_neg h2, if_pos (by omega)]

/-- Claim C6: the journey-time quote never raises (it is a total function into
`Option ℚ`); it returns `none` when the transport layer fails, when the
response has no `'journeys'` key, and when the journey list is empty; and on a
successful response with journeys it returns the minimum duration among all
returned options. -/
theorem C6_quote_spec :
    ∀ (cache : CacheState JourneyData) (net : Option JourneyData)
      (from_lat from_lon to_lat to_lon : ℚ),
      (net = none →
        calculate_journey_time cache net from_lat from_lon to_lat to_lon = none) ∧
      (∀ jd, net = some jd → jd.journeys? = none →
        calculate_journey_time cache net from_lat from_lon to_lat to_lon = none) ∧
      (∀ jd, net = some jd → jd.journeys? = some [] →
        calculate_journey_time cache net from_lat from_lon to_lat to_lon = none) ∧
      (∀ js, net = some (JourneyData.mk (some js)) → js ≠ [] →
        (∀ j ∈ js, (Journey.duration j).isSome) →
        ∃ d, calculate_journey_time cache net from_lat from_lon to_lat to_lon = some d ∧
          (∃ j ∈ js, Journey.duration j = some d) ∧
          (∀ j ∈ js, ∀ dj, Journey.duration j = some dj → d ≤ dj)) := by
  intro cache net flat flon tlat tlon
  refine ⟨?_, ?_, ?_, ?_⟩
  · intro h
    rw [h]
    exact cjt_of_failure cache flat flon tlat tlon
  · intro jd h hj
    rcases jd with ⟨jj⟩
    have hj' : jj = none := hj
    rw [h, hj']
    exact cjt_of_no_journeys_key cache flat flon tlat tlon
  · intro jd h hj
    rcases jd with ⟨jj⟩
    have hj' : jj = some [] := hj
    rw [h, hj']
    exact cjt_of_empty_journeys cache flat flon tlat tlon
  · intro js h hne hdur
    rcases js with _ | ⟨j, js'⟩
    · exact absurd rfl hne
    · rw [h, cjt_of_journeys]
      obtain ⟨m, hm, hmem, hle⟩ := pyMinBy_spec durationKey js' j
      rw [hm]
      obtain ⟨d, hd⟩ := Option.isSome_iff_exists.mp (hdur m hmem)
      refine ⟨d, hd, ⟨m, hmem, hd⟩, ?_⟩
      intro j' hj' dj hdj
      have hkm := hle j' hj'
      rw [show durationKey m = (d : WithTop ℚ) from by simp [durationKey, hd],
        show durationKey j' = (dj : WithTop ℚ) from by simp [durationKey, hdj]] at hkm
      exact WithTop.coe_le_coe.mp hkm

/-- Witness for C6 at a concrete successful response: the minimum of
`[30, 12, 25]` is selected. -/
theorem C6_witness :
    ∃ d, calculate_journey_time emptyCache netC6 0 0 1 1 = some d ∧
      (∃ j ∈ [Journey.mk (some (30 : ℚ)), Journey.mk (some 12), Journey.mk (some 25)],
        Journey.duration j = some d) ∧
      (∀ j ∈ [Journey.mk (some (30 : ℚ)), Journey.mk (some 12), Journey.mk (some 25)],
        ∀ dj, Journey.duration j = some dj → d ≤ dj) :=
  (C6_quote_spec emptyCache netC6 0 0 1 1).2.2.2
    [Journey.mk (some 30), Journey.mk (some 12), Journey.mk (some 25)]
    rfl (by simp) (by decide)

/-- Claim C7 counterexample: a coordinate-only journey-planning query (no
time, no date, departure search) is NOT served from the cache.  Even when the
cache holds data under every conceivable key, `plan_journey` returns the fresh
network response — which differs from every cached value — and leaves the
cache unchanged, so no keying on the (rounded) coordinate pair takes place. -/
theorem C7_counterexample :
    (∀ k, cacheFull k = some (JourneyData.mk (some []))) ∧
    plan_journey cacheFull (some (JourneyData.mk none))
        ⟨51.5, -0.12, 51.52, -0.1, none, none, false⟩ =
      (some (JourneyData.mk none), cacheFull) ∧
    JourneyData.mk none ≠ JourneyData.mk (some []) :=
  ⟨fun _ => rfl, rfl, by decide⟩

/-- Claim C7 (amended): every journey-planning query — coordinate-only or
time-sensitive — bypasses the cache: `plan_journey` passes no cache key, so it
returns the fresh network response and leaves the cache unchanged; caching in
`_make_request` happens only when a cache key is supplied, in which case a
present entry is returned without touching the network. -/
theorem C7_journey_queries_bypass_cache :
    (∀ (cache : CacheState JourneyData) (net : Option JourneyData) (q : JourneyQuery),
      plan_journey cache net q = (net, cache)) ∧
    (∀ (cache : CacheState JourneyData) (net : Option JourneyData)
      (key : String) (d : JourneyData),
      cache key = some d → make_request cache net (some key) = (some d, cache)) := by
  constructor
  · intro cache net q
    rfl
  · intro cache net key d h
    rw [make_request_some_key, h]

/-- Witness for C7 (amended), cache-hit part, at a concrete populated
cache. -/
theorem C7_witness :
    make_request cacheFull (some (JourneyData.mk none)) (some (r"k")) =
      (some (JourneyData.mk (some [])), cacheFull) :=
  C7_journey_queries_bypass_cache.2 cacheFull (some (JourneyData.mk none))
    (r"k") (JourneyData.mk (some [])) rfl

/-- Claim C9: calling the optimizer with an empty participants list and a
non-empty candidate list of length at most `max_candidates` returns the first
candidate with score `+infinity` (`⊤`) and an empty journey-times list, rather
than returning none. -/
theorem C9_empty_participants (w : ℚ) (oracle : Oracle) (v : Venue)
    (vs : List Venue) (cap : ℕ) (h : (v :: vs).length ≤ cap) :
    find_optimal_meeting_point w oracle [] (v :: vs) cap =
      Except.ok (some (VenueScore.mk v ⊤ [])) := by
  have hf : prefilter [] (v :: vs) cap = Except.ok (v :: vs) := by
    unfold prefilter
    rw [if_neg (not_lt.mpr h)]
  have hsc : venueScores w oracle [] (v :: vs) =
      (v :: vs).map (fun u => VenueScore.mk u ⊤ []) := by
    simp [venueScores, calculate_journey_score]
  rw [find_optimal_eq_head w oracle [] (v :: vs) cap (v :: vs) hf, hsc]
  have hpw : ((v :: vs).map (fun u => VenueScore.mk u ⊤ [])).Pairwise
      (fun a b => scoreLE a b = true) := by
    rw [List.pairwise_map]
    exact pairwise_of_forall_rel (fun a b => by simp [scoreLE]) (v :: vs)
  rw [List.mergeSort_of_sorted hpw]
  simp

/-- Witness for C9 at a concrete two-candidate input. -/
theorem C9_witness :
    find_optimal_meeting_point (1/2) oracle10 [] [vA, vB] 10 =
      Except.ok (some (VenueScore.mk vA ⊤ [])) :=
  C9_empty_participants (1/2) oracle10 vA [vB] 10 (by norm_num)

/-- Claim C10: with an empty participants list and more candidates than
`max_candidates`, the pre-filter's centroid computation divides by zero and
the call raises `ZeroDivisionError` instead of returning a value; with a
non-empty participants list this error branch is unreachable and the call
returns a value. -/
theorem C10_zero_division (w : ℚ) (oracle : Oracle) (ps : List Participant)
    (venues : List Venue) (cap : ℕ) :
    (ps = [] → cap < venues.length →
      find_optimal_meeting_point w oracle ps venues cap =
        Except.error PyError.zeroDivisionError) ∧
    (ps ≠ [] →
      ∃ r, find_optimal_meeting_point w oracle ps venues cap = Except.ok r) := by
  constructor
  · intro hps hcap
    have hf : prefilter ps venues cap = Except.error PyError.zeroDivisionError := by
      unfold prefilter
      rw [if_pos hcap, if_pos (by rw [hps]; rfl)]
    unfold find_optimal_meeting_point
    rw [hf]
  · intro hps
    obtain ⟨f, hf⟩ := prefilter_ok_exists ps venues cap hps
    rw [find_optimal_eq_head w oracle ps venues cap f hf]
    exact ⟨_, rfl⟩

/-- Witness for C10: the error at a concrete empty-participants over-cap
input, and a successful run at a concrete non-empty-participants input. -/
theorem C10_witness :
    find_optimal_meeting_point (1/2) oracle10 [] [vA, vB] 1 =
        Except.error PyError.zeroDivisionError ∧
    ∃ r, find_optimal_meeting_point (1/2) oracle10 [p0] [vA, vB] 1 =
      Except.ok r :=
  ⟨(C10_zero_division (1/2) oracle10 [] [vA, vB] 1).1 rfl (by norm_num),
   (C10_zero_division (1/2) oracle10 [p0] [vA, vB] 1).2 (by simp)⟩

/-- Claim C3: the optimizer sorts all scored candidates ascending by score and
returns the first — which, the sort being stable, is the first-seen candidate
among those of minimal score (no further tie-break) — together with its score
and full journey-time list; it returns none exactly when no candidate produced
a score. -/
theorem C3_ranking (w : ℚ) (oracle : Oracle) (ps : List Participant)
    (venues : List Venue) (cap : ℕ) (filtered : List Venue)
    (hf : prefilter ps venues cap = Except.ok filtered) :
    find_optimal_meeting_point w oracle ps venues cap =
      Except.ok ((venueScores w oracle ps filtered).find? fun x =>
        (venueScores w oracle ps filtered).all (scoreLE x)) ∧
    (find_optimal_meeting_point w oracle ps venues cap = Except.ok none ↔
      venueScores w oracle ps filtered = []) := by
  have hh := find_optimal_eq_head w oracle ps venues cap filtered hf
  have hfind := head_mergeSort_eq_find scoreLE scoreLE_trans scoreLE_total
    (venueScores w oracle ps filtered)
  constructor
  · rw [hh, hfind]
  · constructor
    · intro h
      rw [hh] at h
      have h2 : ((venueScores w oracle ps filtered).mergeSort scoreLE).head? = none := by
        simpa using h
      have h3 : (venueScores w oracle ps filtered).mergeSort scoreLE = [] :=
        List.head?_eq_none_iff.mp h2
      have h5 := congrArg List.length h3
      rw [List.length_mergeSort] at h5
      exact List.length_eq_zero.mp (by simpa using h5)
    · intro h
      rw [hh, h]
      simp

/-- Witness for C3 at a concrete one-candidate input: the first-seen minimum
of the scored list is returned. -/
theorem C3_witness :
    find_optimal_meeting_point (1/2) oracle10 [] [vA] 10 =
      Except.ok (some (VenueScore.mk vA ⊤ [])) := by
  have h := (C3_ranking (1/2) oracle10 [] [vA] 10 [vA] (by simp [prefilter])).1
  rw [h]
  have hsc : venueScores (1/2) oracle10 [] [vA] = [VenueScore.mk vA ⊤ []] := by
    simp [venueScores, calculate_journey_score]
  rw [hsc]
  simp [scoreLE]

/-- Claim C8: every venue score produced by the optimizer carries one journey
time per participant, in participant input order, the i-th being the i-th
participant's round trip (origin→venue plus venue→destination, failed legs
contributing 0); in particular this holds for the returned best venue. -/
theorem C8_journey_times_shape (w : ℚ) (oracle : Oracle) (ps : List Participant)
    (venues : List Venue) (cap : ℕ) (filtered : List Venue)
    (hf : prefilter ps venues cap = Except.ok filtered) :
    (∀ e ∈ venueScores w oracle ps filtered,
      e.journey_times = ps.map (fun p => roundTrip oracle p e.venue) ∧
      e.journey_times.length = ps.length ∧
      ∀ i : ℕ, e.journey_times[i]? =
        (ps[i]?).map fun p => roundTrip oracle p e.venue) ∧
    (∀ b, find_optimal_meeting_point w oracle ps venues cap = Except.ok (some b) →
      b.journey_times = ps.map fun p => roundTrip oracle p b.venue) := by
  have hmem : ∀ e ∈ venueScores w oracle ps filtered,
      e.journey_times = ps.map (fun p => roundTrip oracle p e.venue) := by
    intro e he
    unfold venueScores at he
    obtain ⟨v, hv, rfl⟩ := List.mem_map.mp he
    rfl
  constructor
  · intro e he
    refine ⟨hmem e he, ?_, ?_⟩
    · rw [hmem e he, List.length_map]
    · intro i
      rw [hmem e he, List.getElem?_map]
  · intro b hb
    rw [find_optimal_eq w oracle ps venues cap filtered hf] at hb
    cases hms : (venueScores w oracle ps filtered).mergeSort scoreLE with
    | nil =>
      rw [hms] at hb
      exact absurd hb (by simp)
    | cons x t =>
      rw [hms] at hb
      have hxb : x = b := by
        simpa using hb
      have hx : x ∈ (venueScores w oracle ps filtered).mergeSort scoreLE := by
        rw [hms]
        exact List.mem_cons_self x t
      rw [← hxb]
      exact hmem x (List.mem_mergeSort.mp hx)

/-- Witness for C8 at a concrete input. -/
theorem C8_witness :
    (∀ e ∈ venueScores (1/2) oracle10 [p0] [vA],
      e.journey_times = [p0].map (fun p => roundTrip oracle10 p e.venue) ∧
      e.journey_times.length = [p0].length ∧
      ∀ i : ℕ, e.journey_times[i]? =
        ([p0][i]?).map fun p => roundTrip oracle10 p e.venue) ∧
    (∀ b, find_optimal_meeting_point (1/2) oracle10 [p0] [vA] 10 =
        Except.ok (some b) →
      b.journey_times = [p0].map fun p => roundTrip oracle10 p b.venue) :=
  C8_journey_times_shape (1/2) oracle10 [p0] [vA] 10 [vA] (by simp [prefilter])

/-- Claim C2 counterexample: an oracle failure on a leg does NOT exclude the
candidate.  With one participant and an oracle that fails on both legs of
candidate `vA` but succeeds (10 minutes each way) for candidate `vB`, the
failed legs are coerced to 0 minutes, `vA` is scored 0 — and returned as the
best venue — instead of being excluded in favour of `vB`. -/
theorem C2_counterexample :
    find_optimal_meeting_point (1/2) oracleFailA [p0] [vA, vB] 10 =
      Except.ok (some (VenueScore.mk vA ((0 : ℝ) : WithTop ℝ) [0])) ∧
    oracleFailA p0.start_lat p0.start_lon vA.lat vA.lon = none := by
  constructor
  · have hf : prefilter [p0] [vA, vB] 10 = Except.ok [vA, vB] := by
      simp [prefilter]
    rw [find_optimal_eq_head (1/2) oracleFailA [p0] [vA, vB] 10 [vA, vB] hf]
    have hsc : venueScores (1/2) oracleFailA [p0] [vA, vB] =
        [VenueScore.mk vA ((0 : ℝ) : WithTop ℝ) [0],
         VenueScore.mk vB ((20 : ℝ) : WithTop ℝ) [20]] := by
      simp only [venueScores, roundTrip, oracleFailA, p0, vA, vB,
        List.map_cons, List.map_nil]
      norm_num [calculate_journey_score]
    rw [hsc]
    have hpw : [VenueScore.mk vA ((0 : ℝ) : WithTop ℝ) [0],
        VenueScore.mk vB ((20 : ℝ) : WithTop ℝ) [20]].Pairwise
        (fun a b => scoreLE a b = true) := by
      simp [scoreLE]
    rw [List.mergeSort_of_sorted hpw]
    rfl
  · rfl

/-- Claim C2 (amended): an oracle quote failure (`None`) on a leg is coerced
to 0 minutes by `or 0` and the affected candidate remains in the ranking with
that leg contributing 0; no candidate is ever excluded — every pre-filter
survivor is scored, and a best venue is returned whenever the surviving
candidate list is non-empty, oracle failures notwithstanding. -/
theorem C2_no_candidate_excluded (w : ℚ) (oracle : Oracle)
    (ps : List Participant) (venues : List Venue) (cap : ℕ)
    (filtered : List Venue)
    (hf : prefilter ps venues cap = Except.ok filtered) :
    (venueScores w oracle ps filtered).map VenueScore.venue = filtered ∧
    (filtered ≠ [] → ∃ b, find_optimal_meeting_point w oracle ps venues cap =
      Except.ok (some b) ∧ b ∈ venueScores w oracle ps filtered) := by
  constructor
  · unfold venueScores
    rw [List.map_map]
    exact List.map_id filtered
  · intro hne
    rw [find_optimal_eq_head w oracle ps venues cap filtered hf]
    cases hms : (venueScores w oracle ps filtered).mergeSort scoreLE with
    | nil =>
      exfalso
      have h5 := congrArg List.length hms
      rw [List.length_mergeSort] at h5
      unfold venueScores at h5
      rw [List.length_map] at h5
      exact hne (List.length_eq_zero.mp (by simpa using h5))
    | cons x t =>
      refine ⟨x, rfl, ?_⟩
      have hx : x ∈ (venueScores w oracle ps filtered).mergeSort scoreLE := by
        rw [hms]
        exact List.mem_cons_self x t
      exact List.mem_mergeSort.mp hx

/-- Witness for C2 (amended) at the concrete failing oracle: a best venue is
still returned and belongs to the scored list. -/
theorem C2_witness :
    ∃ b, find_optimal_meeting_point (1/2) oracleFailA [p0] [vA, vB] 10 =
      Except.ok (some b) ∧ b ∈ venueScores (1/2) oracleFailA [p0] [vA, vB] :=
  (C2_no_candidate_excluded (1/2) oracleFailA [p0] [vA, vB] 10 [vA, vB]
    (by simp [prefilter])).2 (by simp)

/-- Claim C4: the pre-filter is a no-op (same list, same order) when there are
at most `cap` candidates; otherwise it keeps exactly `cap` candidates, each no
farther (Euclidean distance in coordinate space) from the centroid of the
participants' origins than any excluded candidate, ties broken by original
candidate order (an equally-distant earlier candidate is kept whenever a later
one is). -/
theorem C4_prefilter (ps : List Participant) (venues : List Venue) (cap : ℕ) :
    (venues.length ≤ cap → prefilter ps venues cap = Except.ok venues) ∧
    (cap < venues.length → ps ≠ [] →
      ∃ kept rest, prefilter ps venues cap = Except.ok kept ∧
        kept.length = cap ∧
        (kept ++ rest).Perm venues ∧
        (∀ v ∈ kept, ∀ u ∈ rest,
          calc_distance (avg_start_lat ps) (avg_start_lon ps) v ≤
            calc_distance (avg_start_lat ps) (avg_start_lon ps) u) ∧
        (venues.Nodup → ∀ a b : Venue, [b, a].Sublist venues →
          calc_distance (avg_start_lat ps) (avg_start_lon ps) b =
            calc_distance (avg_start_lat ps) (avg_start_lon ps) a →
          a ∈ kept → b ∈ kept)) := by
  constructor
  · intro h
    unfold prefilter
    rw [if_neg (not_lt.mpr h)]
  · intro hcap hps
    refine ⟨(venues.mergeSort (distLE (avg_start_lat ps) (avg_start_lon ps))).take cap,
      (venues.mergeSort (distLE (avg_start_lat ps) (avg_start_lon ps))).drop cap,
      ?_, ?_, ?_, ?_, ?_⟩
    · unfold prefilter
      rw [if_pos hcap, if_neg (fun h => hps (List.length_eq_zero.mp h))]
    · rw [List.length_take, List.length_mergeSort]
      exact Nat.min_eq_left (le_of_lt hcap)
    · rw [List.take_append_drop]
      exact List.mergeSort_perm venues _
    · intro v hv u hu
      have hsorted := List.sorted_mergeSort
        (distLE_trans (avg_start_lat ps) (avg_start_lon ps))
        (distLE_total (avg_start_lat ps) (avg_start_lon ps)) venues
      rw [← List.take_append_drop cap
        (venues.mergeSort (distLE (avg_start_lat ps) (avg_start_lon ps)))] at hsorted
      have h3 := (List.pairwise_append.mp hsorted).2.2 v hv u hu
      simpa [distLE, decide_eq_true_eq] using h3
    · intro hnd a b hsub heq ha
      have hleba : distLE (avg_start_lat ps) (avg_start_lon ps) b a = true := by
        simp only [distLE, decide_eq_true_eq]
        exact le_of_eq heq
      have hpair := List.pair_sublist_mergeSort
        (distLE_trans (avg_start_lat ps) (avg_start_lon ps))
        (distLE_total (avg_start_lat ps) (avg_start_lon ps)) hleba hsub
      obtain ⟨r₁, r₂, hr, hbr, har⟩ := List.cons_sublist_iff.mp hpair
      have ha2 : a ∈ r₂ := har.subset (List.mem_cons_self a [])
      have hndsorted :
          (venues.mergeSort (distLE (avg_start_lat ps) (avg_start_lon ps))).Nodup :=
        (List.mergeSort_perm venues _).nodup_iff.mpr hnd
      rw [hr] at ha hndsorted ⊢
      exact take_mem_earlier hndsorted hbr ha2 ha

/-- Witness for C4: the no-op case at two candidates under a cap of 5, and the
filtering case at three candidates under a cap of 2. -/
theorem C4_witness :
    prefilter [p0] [vA, vB] 5 = Except.ok [vA, vB] ∧
    (∃ kept rest, prefilter [p0] [vA, vB, vC] 2 = Except.ok kept ∧
      kept.length = 2 ∧
      (kept ++ rest).Perm [vA, vB, vC] ∧
      (∀ v ∈ kept, ∀ u ∈ rest,
        calc_distance (avg_start_lat [p0]) (avg_start_lon [p0]) v ≤
          calc_distance (avg_start_lat [p0]) (avg_start_lon [p0]) u) ∧
      ([vA, vB, vC].Nodup → ∀ a b : Venue, [b, a].Sublist [vA, vB, vC] →
        calc_distance (avg_start_lat [p0]) (avg_start_lon [p0]) b =
          calc_distance (avg_start_lat [p0]) (avg_start_lon [p0]) a →
        a ∈ kept → b ∈ kept)) :=
  ⟨(C4_prefilter [p0] [vA, vB] 5).1 (by simp),
   (C4_prefilter [p0] [vA, vB, vC] 2).2 (by simp) (by simp)⟩

/-- Claim C5 counterexample: with no participants the candidate generator does
not return an empty list — the centroid computation divides by
`len(all_points) = 0` and the call raises `ZeroDivisionError`. -/
theorem C5_counterexample :
    get_potential_meeting_venues apiNone [] 20 =
      Except.error PyError.zeroDivisionError := rfl

/-- Claim C5 (amended): for a non-empty participant list, the candidate
generator computes the centroid of the union of all participant origin and
destination coordinates as the independent arithmetic mean of latitudes and of
longitudes, queries the catalog at that centroid with radius 1500 and cap 5,
and returns the wrapped stations (truncated to `limit`); with no participants
it raises `ZeroDivisionError` rather than returning an empty list. -/
theorem C5_candidate_generation (api : ℚ → ℚ → ℚ → List Station)
    (ps : List Participant) (limit : ℕ) (hps : ps ≠ []) :
    get_potential_meeting_venues api ps limit =
      Except.ok
        (((get_nearest_stations api
            (((ps.map Participant.start_lat).sum + (ps.map Participant.end_lat).sum) /
              ((2 * ps.length : ℕ) : ℚ))
            (((ps.map Participant.start_lon).sum + (ps.map Participant.end_lon).sum) /
              ((2 * ps.length : ℕ) : ℚ))
            1500 5).map stationToVenue).take limit) := by
  have hlen := all_points_length ps
  have hfst := all_points_fst_sum ps
  have hsnd := all_points_snd_sum ps
  have hne : ¬ ((ps.foldr
      (fun p acc => (p.start_lat, p.start_lon) :: (p.end_lat, p.end_lon) :: acc)
      ([] : List (ℚ × ℚ))).length = 0) := by
    rw [hlen]
    intro h0
    exact hps (List.length_eq_zero.mp (by omega))
  simp only [get_potential_meeting_venues]
  rw [if_neg hne, hfst, hsnd, hlen]

/-- Witness for C5 at a concrete one-participant input with an empty
catalog. -/
theorem C5_witness :
    get_potential_meeting_venues apiNone [p0] 20 = Except.ok [] := by
  rw [C5_candidate_generation apiNone [p0] 20 (by simp)]
  simp [get_nearest_stations, apiNone]

end Meetupspot
